import Mathlib

/-!
ZLG UDS diagnostic demo: frame model, wire translation, transmit path,
keep-alive configuration and receive loop.

Shallow embedding of `canframe.h` and of the translation, transmit, keep-alive
and receive code of `demoDlg.cpp`.  Machine integers are natural numbers (or
integers for `int` fields); a 32-bit result is reduced modulo `2^32` where the
C expression is evaluated in `unsigned int`.  Byte buffers are lists; a
`memcpy` that would leave one of its buffers is undefined in C and is `none`
here.
-/

namespace ZlgUds

/-! ## canframe.h -/

/-- EFF/SFF is set in the MSB. -/
def CAN_EFF_FLAG : Nat := 0x80000000
/-- Remote transmission request. -/
def CAN_RTR_FLAG : Nat := 0x40000000
/-- Error message frame. -/
def CAN_ERR_FLAG : Nat := 0x20000000
/-- Identifier bits. -/
def CAN_ID_FLAG : Nat := 0x1FFFFFFF

def CAN_MAX_DLEN : Nat := 8
def CANFD_MAX_DLEN : Nat := 64

/-- The C idiom `!!(x)`: 0 for zero, 1 for every other value. -/
def notNot (x : Nat) : Nat := if x = 0 then 0 else 1

/-- Macro `MAKE_CAN_ID(id, eff, rtr, err)`:
`(id | (!!(eff) << 31) | (!!(rtr) << 30) | (!!(err) << 29))`, evaluated in a
32-bit unsigned word (`id` is a `uint32` where the macro is used). -/
def MAKE_CAN_ID (id eff rtr err : Nat) : Nat :=
  (id ||| (notNot eff <<< 31) ||| (notNot rtr <<< 30) ||| (notNot err <<< 29)) % 2 ^ 32

/-- Macro `IS_EFF(id)`: `!!(id & CAN_EFF_FLAG)`. -/
def IS_EFF (id : Nat) : Nat := notNot (id &&& CAN_EFF_FLAG)
/-- Macro `IS_RTR(id)`: `!!(id & CAN_RTR_FLAG)`. -/
def IS_RTR (id : Nat) : Nat := notNot (id &&& CAN_RTR_FLAG)
/-- Macro `IS_ERR(id)`: `!!(id & CAN_ERR_FLAG)`. -/
def IS_ERR (id : Nat) : Nat := notNot (id &&& CAN_ERR_FLAG)
/-- Macro `GET_ID(id)`: `id & CAN_ID_FLAG`. -/
def GET_ID (id : Nat) : Nat := id &&& CAN_ID_FLAG


/-- Struct `can_frame`: basic CAN frame, payload buffer of `CAN_MAX_DLEN` bytes. -/
structure can_frame where
  can_id : Nat
  can_dlc : Nat
  __pad : Nat
  __res0 : Nat
  __res1 : Nat
  data : List Nat
deriving DecidableEq

/-- Struct `canfd_frame`: CAN FD frame, payload buffer of `CANFD_MAX_DLEN` bytes. -/
structure canfd_frame where
  can_id : Nat
  len : Nat
  flags : Nat
  __res0 : Nat
  __res1 : Nat
  data : List Nat
deriving DecidableEq

/-! ## Declarations used by demoDlg.cpp whose headers are not part of the sources -/

/-- Modelled from the spec: the declaration of `ZUDS_FRAME` (zuds.h) is missing.
The canonical frame has the members the code reads and writes: `id` (32 bit),
`extend`, `remote`, `data_len` (8 bit each) and the payload buffer `data`. -/
structure ZUDS_FRAME where
  id : Nat
  extend : Nat
  remote : Nat
  data_len : Nat
  data : List Nat
deriving DecidableEq

/-- Modelled from the spec: capacity of the payload buffer of `ZUDS_FRAME`
(zuds.h is missing); the canonical payload is 0 to 64 bytes long. -/
def ZUDS_DATA_LEN : Nat := 64

/-- Modelled from the spec: the declaration of `ZCAN_Transmit_Data` (zlgcan.h) is
missing.  The code uses its member `frame` only; the other members are gathered
in `other`, which is 0 after `memset`. -/
structure ZCAN_Transmit_Data where
  frame : can_frame
  other : Nat
deriving DecidableEq

/-- Modelled from the spec: the declaration of `ZCAN_TransmitFD_Data` (zlgcan.h)
is missing; member `frame` and the other members as `other`. -/
structure ZCAN_TransmitFD_Data where
  frame : canfd_frame
  other : Nat
deriving DecidableEq

/-- Modelled from the spec: the declaration of `ZCAN_Receive_Data` (zlgcan.h) is
missing; member `frame` and the other members as `other`. -/
structure ZCAN_Receive_Data where
  frame : can_frame
  other : Nat
deriving DecidableEq

/-- Modelled from the spec: the declaration of `ZCAN_ReceiveFD_Data` (zlgcan.h)
is missing; member `frame` and the other members as `other`. -/
structure ZCAN_ReceiveFD_Data where
  frame : canfd_frame
  other : Nat
deriving DecidableEq

/-! ## Memory primitives -/

/-- The effect of `memcpy(dst, src, n)` on the destination buffer: its first `n`
bytes become the first `n` bytes of `src`.  Copying more bytes than either
buffer holds is undefined behaviour: `none`. -/
def memcpy (dst src : List Nat) (n : Nat) : Option (List Nat) :=
  if n ≤ dst.length ∧ n ≤ src.length then some (src.take n ++ dst.drop n) else none

/-- A `ZCAN_Transmit_Data` after `memset(&x, 0, sizeof x)`. -/
def ZCAN_Transmit_Data.zeroed : ZCAN_Transmit_Data :=
  { frame := { can_id := 0, can_dlc := 0, __pad := 0, __res0 := 0, __res1 := 0,
               data := List.replicate CAN_MAX_DLEN 0 },
    other := 0 }

/-- A `ZCAN_TransmitFD_Data` after `memset(&x, 0, sizeof x)`. -/
def ZCAN_TransmitFD_Data.zeroed : ZCAN_TransmitFD_Data :=
  { frame := { can_id := 0, len := 0, flags := 0, __res0 := 0, __res1 := 0,
               data := List.replicate CANFD_MAX_DLEN 0 },
    other := 0 }

/-- A `ZUDS_FRAME` after `memset(uds, 0, sizeof(ZUDS_FRAME))`. -/
def ZUDS_FRAME.zeroed : ZUDS_FRAME :=
  { id := 0, extend := 0, remote := 0, data_len := 0,
    data := List.replicate ZUDS_DATA_LEN 0 }

/-! ## demoDlg.cpp: translation between canonical and wire frames -/

/-- Body of the loop of `UDSFrame2ZCAN`, for one index `i`
(`can_frm = can[i]`, `uds_frm = uds[i]`). -/
def UDSFrame2ZCAN_body (uds_frm : ZUDS_FRAME) : Option ZCAN_Transmit_Data := do
  let can_frm := ZCAN_Transmit_Data.zeroed
  let can_id := MAKE_CAN_ID uds_frm.id uds_frm.extend uds_frm.remote 0
  let can_dlc := uds_frm.data_len
  let data ← memcpy can_frm.frame.data uds_frm.data uds_frm.data_len
  pure { can_frm with
    frame := { can_frm.frame with can_id := can_id, can_dlc := can_dlc, data := data } }

/-- Function `UDSFrame2ZCAN(can, uds, count)`: fills `can[0 .. count-1]` from
`uds[0 .. count-1]`; the result is the array `can`. -/
def UDSFrame2ZCAN (uds : List ZUDS_FRAME) (count : Nat) : Option (List ZCAN_Transmit_Data) :=
  (List.range count).mapM (fun i => uds[i]? >>= UDSFrame2ZCAN_body)

/-- Body of the loop of `UDSFrame2ZCANFD`, for one index `i`. -/
def UDSFrame2ZCANFD_body (uds_frm : ZUDS_FRAME) : Option ZCAN_TransmitFD_Data := do
  let canfd_frm := ZCAN_TransmitFD_Data.zeroed
  let can_id := MAKE_CAN_ID uds_frm.id uds_frm.extend uds_frm.remote 0
  let len := uds_frm.data_len
  let data ← memcpy canfd_frm.frame.data uds_frm.data uds_frm.data_len
  pure { canfd_frm with
    frame := { canfd_frm.frame with can_id := can_id, len := len, data := data } }

/-- Function `UDSFrame2ZCANFD(canfd, uds, count)`. -/
def UDSFrame2ZCANFD (uds : List ZUDS_FRAME) (count : Nat) :
    Option (List ZCAN_TransmitFD_Data) :=
  (List.range count).mapM (fun i => uds[i]? >>= UDSFrame2ZCANFD_body)

/-- Function `ZCAN2UDSFrame(uds, can)`; the result is `*uds`. -/
def ZCAN2UDSFrame (can : ZCAN_Receive_Data) : Option ZUDS_FRAME := do
  let uds := ZUDS_FRAME.zeroed
  let id := GET_ID can.frame.can_id
  let extend := IS_EFF can.frame.can_id
  let remote := IS_RTR can.frame.can_id
  let data_len := can.frame.can_dlc
  let data ← memcpy uds.data can.frame.data data_len
  pure { uds with id := id, extend := extend, remote := remote, data_len := data_len,
                  data := data }

/-- Function `ZCANFD2UDSFrame(uds, canfd)`; the result is `*uds`. -/
def ZCANFD2UDSFrame (canfd : ZCAN_ReceiveFD_Data) : Option ZUDS_FRAME := do
  let uds := ZUDS_FRAME.zeroed
  let id := GET_ID canfd.frame.can_id
  let extend := IS_EFF canfd.frame.can_id
  let remote := IS_RTR canfd.frame.can_id
  let data_len := canfd.frame.len
  let data_len := if data_len > 8 then 8 else data_len
  let data ← memcpy uds.data canfd.frame.data data_len
  pure { uds with id := id, extend := extend, remote := remote, data_len := data_len,
                  data := data }

/-- The payload of a canonical frame: the first `data_len` bytes of its buffer. -/
def ZUDS_FRAME.payload (f : ZUDS_FRAME) : List Nat := f.data.take f.data_len

/-- A classic wire frame sent is the wire frame received: the `can_frame` of the
transmit record inside a receive record (`other` is what the device adds). -/
def classicLoopback (w : ZCAN_Transmit_Data) (other : Nat) : ZCAN_Receive_Data :=
  { frame := w.frame, other := other }

/-- An FD wire frame sent is the wire frame received. -/
def fdLoopback (w : ZCAN_TransmitFD_Data) (other : Nat) : ZCAN_ReceiveFD_Data :=
  { frame := w.frame, other := other }

/-- Translate one canonical frame to a classic wire frame and back. -/
def classicRoundTrip (f : ZUDS_FRAME) (other : Nat) : Option ZUDS_FRAME := do
  let can ← UDSFrame2ZCAN [f] 1
  let w ← can[0]?
  ZCAN2UDSFrame (classicLoopback w other)

/-- Translate one canonical frame to an FD wire frame and back. -/
def fdRoundTrip (f : ZUDS_FRAME) (other : Nat) : Option ZUDS_FRAME := do
  let canfd ← UDSFrame2ZCANFD [f] 1
  let w ← canfd[0]?
  ZCANFD2UDSFrame (fdLoopback w other)

/-- The canonical frame with identifier bit 29 set, no flags and no payload. -/
def frameBit29 : ZUDS_FRAME :=
  { id := 0x20000000, extend := 0, remote := 0, data_len := 0,
    data := List.replicate ZUDS_DATA_LEN 0 }

/-- A received classic frame: id `0x701`, three payload bytes. -/
def rxClassic701 : ZCAN_Receive_Data :=
  { frame := { can_id := 0x701, can_dlc := 3, __pad := 0, __res0 := 0, __res1 := 0,
               data := [0x02, 0x50, 0x01, 0, 0, 0, 0, 0] },
    other := 0 }

/-- A received FD frame: extended id `0x18DAF110`, twelve payload bytes. -/
def rxFd18DAF110 : ZCAN_ReceiveFD_Data :=
  { frame := { can_id := 0x98DAF110, len := 12, flags := 0, __res0 := 0, __res1 := 0,
               data := [1, 2, 3, 4, 5, 6, 7, 8, 9, 10, 11, 12] ++ List.replicate 52 0 },
    other := 0 }

/-- A canonical frame with 12 payload bytes `1 .. 12`. -/
def frame12 : ZUDS_FRAME :=
  { id := 0x701, extend := 0, remote := 0, data_len := 12,
    data := [1, 2, 3, 4, 5, 6, 7, 8, 9, 10, 11, 12] ++ List.replicate 52 0 }

/-! ## demoDlg.cpp: transmit path -/

/-- Modelled from the spec: the result codes of the transmit handler,
`TRANSPORT_OK` and `TRANSPORT_ERROR` (zuds.h), are missing; they are the two
distinct outcomes success and failure of `send`. -/
inductive TransportCode where
  | TRANSPORT_OK
  | TRANSPORT_ERROR
deriving DecidableEq

/-- A call of a device sender made by `transmit`, with the array and the count
handed over. -/
inductive DeviceCall where
  | ZCAN_Transmit (can : List ZCAN_Transmit_Data) (count : Nat)
  | ZCAN_TransmitFD (canfd : List ZCAN_TransmitFD_Data) (count : Nat)
deriving DecidableEq

/-- Method `CdemoDlg::transmit(frame, count)`.  `VERSION_0` (zuds.h, missing) is
a parameter, `format_version` is the member it reads, `ZCAN_Transmit` and
`ZCAN_TransmitFD` are the device senders, which return the number of frames
accepted.  The result is the returned code and the device calls made. -/
def transmit (VERSION_0 format_version : Int)
    (ZCAN_Transmit : List ZCAN_Transmit_Data → Nat → Nat)
    (ZCAN_TransmitFD : List ZCAN_TransmitFD_Data → Nat → Nat)
    (frame : List ZUDS_FRAME) (count : Nat) : Option (TransportCode × List DeviceCall) :=
  if VERSION_0 = format_version then do
    let can ← UDSFrame2ZCAN frame count
    pure (if count = ZCAN_Transmit can count then TransportCode.TRANSPORT_OK
            else TransportCode.TRANSPORT_ERROR,
          [DeviceCall.ZCAN_Transmit can count])
  else do
    let canfd ← UDSFrame2ZCANFD frame count
    pure (if count = ZCAN_TransmitFD canfd count then TransportCode.TRANSPORT_OK
            else TransportCode.TRANSPORT_ERROR,
          [DeviceCall.ZCAN_TransmitFD canfd count])

/-- The number of frames the device accepted in a call: the return value of the
sender called. -/
def DeviceCall.accepted (ZCAN_Transmit : List ZCAN_Transmit_Data → Nat → Nat)
    (ZCAN_TransmitFD : List ZCAN_TransmitFD_Data → Nat → Nat) : DeviceCall → Nat
  | DeviceCall.ZCAN_Transmit can count => ZCAN_Transmit can count
  | DeviceCall.ZCAN_TransmitFD canfd count => ZCAN_TransmitFD canfd count

/-- The number of frames handed over in a device call. -/
def DeviceCall.count : DeviceCall → Nat
  | DeviceCall.ZCAN_Transmit _ count => count
  | DeviceCall.ZCAN_TransmitFD _ count => count

/-- The number of wire frames in the array handed over in a device call. -/
def DeviceCall.batchLength : DeviceCall → Nat
  | DeviceCall.ZCAN_Transmit can _ => can.length
  | DeviceCall.ZCAN_TransmitFD canfd _ => canfd.length

/-- The batch `frame[0 .. count-1]` exists and every frame of it has a payload
length within `cap` and within its own buffer: the translation of the batch
into wire frames with `cap` payload bytes stays inside all buffers. -/
def BatchFits (cap : Nat) (frame : List ZUDS_FRAME) (count : Nat) : Prop :=
  count ≤ frame.length ∧ ∀ f ∈ frame.take count, f.data_len ≤ cap ∧ f.data_len ≤ f.data.length

instance (cap : Nat) (frame : List ZUDS_FRAME) (count : Nat) :
    Decidable (BatchFits cap frame count) := by
  unfold BatchFits; infer_instance

/-! ## demoDlg.cpp: dialog state, start button, keep-alive -/

/-- Modelled from the spec: `ZUDS_ISO15765_PARAM` (zuds.h) is missing; the
segmentation parameters, with the members the code assigns, each wide enough
for the value assigned to it. -/
structure ZUDS_ISO15765_PARAM where
  block_size : Int
  fill_byte : Nat
  st_min : Int
  frame_type : Int
  version : Int
  max_data_len : Nat
deriving DecidableEq

/-- Modelled from the spec: `ZUDS_SESSION_PARAM` (zuds.h) is missing; the
session timing parameters `p2` (`timeout`) and `p2_star` (`enhanced_timeout`). -/
structure ZUDS_SESSION_PARAM where
  enhanced_timeout : Int
  timeout : Int
deriving DecidableEq

/-- Modelled from the spec: `ZUDS_TESTER_PRESENT_PARAM` (zuds.h) is missing; the
keep-alive target address, cycle and suppress-response flag. -/
structure ZUDS_TESTER_PRESENT_PARAM where
  addr : Nat
  cycle : Int
  suppress_response : Nat
deriving DecidableEq

/-- Modelled from the spec: `ZUDS_REQUEST` (zuds.h) is missing; the request with
the members the code assigns. -/
structure ZUDS_REQUEST where
  src_addr : Nat
  dst_addr : Nat
  suppress_response : Nat
  sid : Nat
  param_len : Nat
  param : List Nat
deriving DecidableEq

/-- A call into the session library (zuds), in program order. -/
inductive UdsCall where
  | SetParam_ISO15765 (tp : ZUDS_ISO15765_PARAM)
  | SetParam_SESSION (sparam : ZUDS_SESSION_PARAM)
  | SetTesterPresent (enable : Nat) (param : Option ZUDS_TESTER_PRESENT_PARAM)
  | Request (req : ZUDS_REQUEST)
deriving DecidableEq

/-- The members of class `CdemoDlg` (demoDlg.h) that the modelled methods use.
A combo box is represented by its current selection (`GetCurSel`), a `BOOL` by
an integer. -/
structure CdemoDlg where
  physical_addr_ : String
  resp_addr_ : String
  functional_addr_ : String
  is_ext_frame_ : Int
  request_addr_ctrl_ : Int
  session_keep_addr_ctrl_ : Int
  session_keep_period_ : Int
  session_keep_enable_ : Int
  format_ctrl_ : Int
  format_version : Int
  p2_timeout_ : Int
  p2_more_ : Int
  stmin_ : Int
  bs_ : Int
  fill_byte_ : String
  device_enable_ : Bool
  session_keep_running_ : Bool
  rx_enable_ : Bool
deriving DecidableEq

/-- The values of the dialog controls that `DoDataExchange` reads. -/
structure DialogData where
  physical_addr_ : String
  resp_addr_ : String
  functional_addr_ : String
  is_ext_frame_ : Int
  session_keep_period_ : Int
  session_keep_enable_ : Int
  p2_timeout_ : Int
  p2_more_ : Int
  stmin_ : Int
  bs_ : Int
  fill_byte_ : String
deriving DecidableEq

/-- The dialog after its constructor and `OnInitDialog`: the member
initialisers of demoDlg.cpp and demoDlg.h, the combo boxes at selection 0.
`format_version` has no initialiser and is a parameter. -/
def CdemoDlg.initial (format_version : Int) : CdemoDlg :=
  { physical_addr_ := "700", resp_addr_ := "701", functional_addr_ := "7DF",
    is_ext_frame_ := 0, request_addr_ctrl_ := 0, session_keep_addr_ctrl_ := 0,
    session_keep_period_ := 2000, session_keep_enable_ := 0, format_ctrl_ := 0,
    format_version := format_version, p2_timeout_ := 2000, p2_more_ := 5000,
    stmin_ := 20, bs_ := 0, fill_byte_ := "CC", device_enable_ := false,
    session_keep_running_ := false, rx_enable_ := true }

/-- The call `UpdateData(TRUE)`: the members bound in `DoDataExchange` by
`DDX_Text` and `DDX_Check` take the values of the controls. -/
def UpdateData (ui : DialogData) (s : CdemoDlg) : CdemoDlg :=
  { s with
    physical_addr_ := ui.physical_addr_, resp_addr_ := ui.resp_addr_,
    functional_addr_ := ui.functional_addr_, is_ext_frame_ := ui.is_ext_frame_,
    session_keep_period_ := ui.session_keep_period_,
    session_keep_enable_ := ui.session_keep_enable_,
    p2_timeout_ := ui.p2_timeout_, p2_more_ := ui.p2_more_, stmin_ := ui.stmin_,
    bs_ := ui.bs_, fill_byte_ := ui.fill_byte_ }

/-- Method `CdemoDlg::startSessionKeep()`.  `tcstoul16 str` stands for
`_tcstoul(str, 0, 16)`.  The result is the dialog state afterwards and the
calls of `ZUDS_SetTesterPresent` made, in order. -/
def startSessionKeep (tcstoul16 : String → Nat) (s : CdemoDlg) : CdemoDlg × List UdsCall :=
  if s.session_keep_enable_ ≠ 0 then
    let calls₁ := if s.session_keep_running_ then [UdsCall.SetTesterPresent 0 none] else []
    let param : ZUDS_TESTER_PRESENT_PARAM :=
      { addr := tcstoul16 (if s.session_keep_addr_ctrl_ ≠ 0 then s.functional_addr_
                           else s.physical_addr_),
        cycle := s.session_keep_period_,
        suppress_response := 1 }
    ({ s with session_keep_running_ := true },
      calls₁ ++ [UdsCall.SetTesterPresent 1 (some param)])
  else
    let calls₁ := if s.session_keep_running_ then [UdsCall.SetTesterPresent 0 none] else []
    ({ s with session_keep_running_ := false }, calls₁)

/-- Method `CdemoDlg::OnBnClickedButtonStart()`, up to and including the call
of `ZUDS_Request` (what follows formats the response for display).
`openDevice` is the result `openDevice()` would give, `ui` the values of the
controls, `VERSION_0` the constant of zuds.h.  The result is the dialog state
afterwards and the calls into the session library, in order. -/
def OnBnClickedButtonStart (VERSION_0 : Int) (tcstoul16 : String → Nat) (openDevice : Bool)
    (ui : DialogData) (s : CdemoDlg) : CdemoDlg × List UdsCall :=
  let s := if !s.device_enable_ then { s with device_enable_ := openDevice } else s
  if !s.device_enable_ then (s, [])
  else
    let s := UpdateData ui s
    let s := { s with format_version := s.format_ctrl_ }
    let version := s.format_version
    let tp : ZUDS_ISO15765_PARAM :=
      { block_size := s.bs_,
        fill_byte := tcstoul16 s.fill_byte_,
        st_min := s.stmin_,
        frame_type := s.is_ext_frame_,
        version := version,
        max_data_len := if VERSION_0 = version then 8 else 64 }
    let sparam : ZUDS_SESSION_PARAM :=
      { enhanced_timeout := s.p2_more_, timeout := s.p2_timeout_ }
    let (s, keep) := startSessionKeep tcstoul16 s
    let req : ZUDS_REQUEST :=
      { src_addr := tcstoul16 (if s.request_addr_ctrl_ ≠ 0 then s.functional_addr_
                               else s.physical_addr_),
        dst_addr := tcstoul16 s.resp_addr_,
        suppress_response := 0,
        sid := 0x10,
        param_len := 1,
        param := [0x01] }
    (s, [UdsCall.SetParam_ISO15765 tp, UdsCall.SetParam_SESSION sparam] ++ keep ++
          [UdsCall.Request req])

/-- The segmentation parameters handed to the session library: the argument of
the first `ZUDS_SetParam(.., PARAM_TYPE_ISO15765, ..)` among the calls. -/
def segmentationParams : List UdsCall → Option ZUDS_ISO15765_PARAM
  | [] => none
  | UdsCall.SetParam_ISO15765 tp :: _ => some tp
  | _ :: rest => segmentationParams rest

/-- The number of keep-alive timers armed in the session library after a call:
arming (`ZUDS_SetTesterPresent` with a non-zero enable) adds one, cancelling
(enable 0) removes all, other calls leave the timers alone. -/
def armedTimersAfter (timers : Nat) : UdsCall → Nat
  | UdsCall.SetTesterPresent enable _ => if enable ≠ 0 then timers + 1 else 0
  | _ => timers

/-- One reconfiguration of the keep-alive: the controls are read
(`UpdateData`) and `startSessionKeep` runs; the armed timers follow its calls. -/
def keepAliveStep (tcstoul16 : String → Nat) (st : CdemoDlg × Nat) (ui : DialogData) :
    CdemoDlg × Nat :=
  let r := startSessionKeep tcstoul16 (UpdateData ui st.1)
  (r.1, r.2.foldl armedTimersAfter st.2)

/-- A finite sequence of keep-alive reconfigurations. -/
def keepAliveRun (tcstoul16 : String → Nat) (st : CdemoDlg × Nat) (uis : List DialogData) :
    CdemoDlg × Nat :=
  uis.foldl (keepAliveStep tcstoul16) st

/-! ## demoDlg.cpp: receive loop -/

/-- What one iteration of the receive loop does besides polling. -/
inductive RxEvent where
  | ZUDS_OnReceive (frame : ZUDS_FRAME)
  | sleep_for (ms : Nat)
deriving DecidableEq

/-- One iteration of the `while (rx_enable_)` loop of `CdemoDlg::frameReceive()`.
`rx` is what `ZCAN_Receive(channel_handle_, &can_data, 1, 10)` gives when it is
called: its return value and the content of `can_data` afterwards; `rxfd` is
the same for `ZCAN_ReceiveFD`.  The result is the list of events in order. -/
def frameReceive_iteration (device_enable_ : Bool) (rx : Nat × ZCAN_Receive_Data)
    (rxfd : Nat × ZCAN_ReceiveFD_Data) : Option (List RxEvent) :=
  if !device_enable_ then
    some [RxEvent.sleep_for 2]
  else do
    let hasData := false
    let (ev₁, hasData) ←
      if 1 = rx.1 then do
        let frame ← ZCAN2UDSFrame rx.2
        pure ([RxEvent.ZUDS_OnReceive frame], true)
      else pure ([], hasData)
    let (ev₂, hasData) ←
      if 1 = rxfd.1 then do
        let frame ← ZCANFD2UDSFrame rxfd.2
        pure ([RxEvent.ZUDS_OnReceive frame], true)
      else pure ([], hasData)
    let ev₃ := if !hasData then [RxEvent.sleep_for 2] else []
    pure (ev₁ ++ ev₂ ++ ev₃)

/-- The frame a poll delivered, if it delivered one (return value 1). -/
def polled {α : Type} (r : Nat × α) : Option α := if 1 = r.1 then some r.2 else none

/-! ## Bit-level lemmas on the identifier word -/

theorem notNot_zero : notNot 0 = 0 := rfl

theorem notNot_ne_zero_iff (x : Nat) : notNot x ≠ 0 ↔ x ≠ 0 := by
  unfold notNot; split <;> simp_all

theorem notNot_cases (x : Nat) : (x = 0 ∧ notNot x = 0) ∨ (x ≠ 0 ∧ notNot x = 1) := by
  unfold notNot; split <;> simp_all

/-- Bit `i` of the packed word, for a 32-bit `id`. -/
theorem MAKE_CAN_ID_testBit (id eff rtr err i : Nat) :
    (MAKE_CAN_ID id eff rtr err).testBit i =
      (decide (i < 32) &&
        (id.testBit i || (decide (i = 31) && decide (eff ≠ 0))
          || (decide (i = 30) && decide (rtr ≠ 0))
          || (decide (i = 29) && decide (err ≠ 0)))) := by
  unfold MAKE_CAN_ID
  rcases notNot_cases eff with ⟨he, he1⟩ | ⟨he, he1⟩ <;>
  rcases notNot_cases rtr with ⟨hr, hr1⟩ | ⟨hr, hr1⟩ <;>
  rcases notNot_cases err with ⟨hx, hx1⟩ | ⟨hx, hx1⟩ <;>
  simp only [he1, hr1, hx1, he, hr, hx, notNot_zero, Nat.testBit_mod_two_pow, Nat.testBit_or,
    Nat.zero_shiftLeft, Nat.one_shiftLeft, Nat.testBit_two_pow, Nat.zero_testBit,
    Bool.or_false, ne_eq, not_true_eq_false, not_false_eq_true, decide_True, decide_False,
    Bool.and_true, Bool.and_false, eq_comm]

theorem notNot_and_two_pow (m k : Nat) : notNot (m &&& 2 ^ k) = (m.testBit k).toNat := by
  rw [Nat.and_two_pow]
  cases m.testBit k <;> simp [notNot]

theorem IS_EFF_eq_testBit (m : Nat) : IS_EFF m = (m.testBit 31).toNat :=
  notNot_and_two_pow m 31

theorem IS_RTR_eq_testBit (m : Nat) : IS_RTR m = (m.testBit 30).toNat :=
  notNot_and_two_pow m 30

theorem IS_ERR_eq_testBit (m : Nat) : IS_ERR m = (m.testBit 29).toNat :=
  notNot_and_two_pow m 29

theorem GET_ID_eq_mod (m : Nat) : GET_ID m = m % 2 ^ 29 :=
  Nat.and_pow_two_sub_one_eq_mod m 29

theorem testBit_false_of_lt_two_pow_29 {id i : Nat} (h : id < 2 ^ 29) (hi : 29 ≤ i) :
    id.testBit i = false :=
  Nat.testBit_lt_two_pow (lt_of_lt_of_le h (Nat.pow_le_pow_right (by decide) hi))

theorem toNat_decide_ne_zero (x : Nat) : (decide (x ≠ 0)).toNat = notNot x := by
  unfold notNot; split <;> simp_all

/-- The identifier bits of the packed word are the low 29 bits of `id`. -/
theorem GET_ID_MAKE_CAN_ID (id eff rtr err : Nat) :
    GET_ID (MAKE_CAN_ID id eff rtr err) = id % 2 ^ 29 := by
  rw [GET_ID_eq_mod]
  apply Nat.eq_of_testBit_eq
  intro i
  simp only [Nat.testBit_mod_two_pow, MAKE_CAN_ID_testBit]
  by_cases hi : i < 29
  · have h1 : i < 32 := by omega
    have h2 : i ≠ 31 := by omega
    have h3 : i ≠ 30 := by omega
    have h4 : i ≠ 29 := by omega
    simp [hi, h1, h2, h3, h4]
  · simp [hi]

theorem IS_EFF_MAKE_CAN_ID (id eff rtr err : Nat) (h : id < 2 ^ 29) :
    IS_EFF (MAKE_CAN_ID id eff rtr err) = notNot eff := by
  rw [IS_EFF_eq_testBit, MAKE_CAN_ID_testBit, testBit_false_of_lt_two_pow_29 h (by decide),
    ← toNat_decide_ne_zero]
  simp

theorem IS_RTR_MAKE_CAN_ID (id eff rtr err : Nat) (h : id < 2 ^ 29) :
    IS_RTR (MAKE_CAN_ID id eff rtr err) = notNot rtr := by
  rw [IS_RTR_eq_testBit, MAKE_CAN_ID_testBit, testBit_false_of_lt_two_pow_29 h (by decide),
    ← toNat_decide_ne_zero]
  simp

theorem IS_ERR_MAKE_CAN_ID (id eff rtr err : Nat) (h : id < 2 ^ 29) :
    IS_ERR (MAKE_CAN_ID id eff rtr err) = notNot err := by
  rw [IS_ERR_eq_testBit, MAKE_CAN_ID_testBit, testBit_false_of_lt_two_pow_29 h (by decide),
    ← toNat_decide_ne_zero]
  simp

/-! ## Frame model: decoding undoes encoding -/

/-- C1. For every identifier below `2^29` and all extended, remote and error
flags, the packed word `m = MAKE_CAN_ID(id, eff, rtr, err)` decodes to its
inputs: `GET_ID(m) = id & 0x1FFFFFFF` (which is `id`), and `IS_EFF(m)`,
`IS_RTR(m)`, `IS_ERR(m)` are 1 exactly when the corresponding flag is non-zero
and 0 otherwise. -/
theorem make_can_id_decode (id eff rtr err : Nat) (hid : id < 2 ^ 29) :
    GET_ID (MAKE_CAN_ID id eff rtr err) = id &&& 0x1FFFFFFF ∧
    GET_ID (MAKE_CAN_ID id eff rtr err) = id ∧
    IS_EFF (MAKE_CAN_ID id eff rtr err) = (if eff ≠ 0 then 1 else 0) ∧
    IS_RTR (MAKE_CAN_ID id eff rtr err) = (if rtr ≠ 0 then 1 else 0) ∧
    IS_ERR (MAKE_CAN_ID id eff rtr err) = (if err ≠ 0 then 1 else 0) ∧
    (IS_EFF (MAKE_CAN_ID id eff rtr err) ≠ 0 ↔ eff ≠ 0) ∧
    (IS_RTR (MAKE_CAN_ID id eff rtr err) ≠ 0 ↔ rtr ≠ 0) ∧
    (IS_ERR (MAKE_CAN_ID id eff rtr err) ≠ 0 ↔ err ≠ 0) := by
  have hmask : id &&& 0x1FFFFFFF = id := Nat.and_pow_two_sub_one_of_lt_two_pow hid
  have hflag : ∀ x : Nat, notNot x = (if x ≠ 0 then 1 else 0) := by
    intro x; unfold notNot; split <;> simp_all
  rw [GET_ID_MAKE_CAN_ID, IS_EFF_MAKE_CAN_ID _ _ _ _ hid, IS_RTR_MAKE_CAN_ID _ _ _ _ hid,
    IS_ERR_MAKE_CAN_ID _ _ _ _ hid, hmask, Nat.mod_eq_of_lt hid]
  exact ⟨rfl, rfl, hflag eff, hflag rtr, hflag err, notNot_ne_zero_iff eff,
    notNot_ne_zero_iff rtr, notNot_ne_zero_iff err⟩

/-- C1, at identifier `0x7DF` with the extended and error flags set (given as 1
and 5) and the remote flag clear. -/
theorem make_can_id_decode_witness :
    (0x7DF : Nat) < 2 ^ 29 ∧
    GET_ID (MAKE_CAN_ID 0x7DF 1 0 5) = 0x7DF &&& 0x1FFFFFFF ∧
    GET_ID (MAKE_CAN_ID 0x7DF 1 0 5) = 0x7DF ∧
    IS_EFF (MAKE_CAN_ID 0x7DF 1 0 5) = (if 1 ≠ 0 then 1 else 0) ∧
    IS_RTR (MAKE_CAN_ID 0x7DF 1 0 5) = (if 0 ≠ 0 then 1 else 0) ∧
    IS_ERR (MAKE_CAN_ID 0x7DF 1 0 5) = (if 5 ≠ 0 then 1 else 0) ∧
    (IS_EFF (MAKE_CAN_ID 0x7DF 1 0 5) ≠ 0 ↔ 1 ≠ 0) ∧
    (IS_RTR (MAKE_CAN_ID 0x7DF 1 0 5) ≠ 0 ↔ 0 ≠ 0) ∧
    (IS_ERR (MAKE_CAN_ID 0x7DF 1 0 5) ≠ 0 ↔ 5 ≠ 0) :=
  ⟨by decide, make_can_id_decode 0x7DF 1 0 5 (by decide)⟩

theorem memcpy_eq_some {dst src : List Nat} {n : Nat} (h1 : n ≤ dst.length)
    (h2 : n ≤ src.length) : memcpy dst src n = some (src.take n ++ dst.drop n) := by
  unfold memcpy; rw [if_pos ⟨h1, h2⟩]

theorem UDSFrame2ZCAN_single (f : ZUDS_FRAME) :
    UDSFrame2ZCAN [f] 1 = (UDSFrame2ZCAN_body f).map (fun w => [w]) := by
  unfold UDSFrame2ZCAN
  have hr : List.range 1 = [0] := rfl
  rw [hr, List.mapM_cons, List.mapM_nil]
  cases h : UDSFrame2ZCAN_body f <;> simp [h]

theorem UDSFrame2ZCAN_body_eq (f : ZUDS_FRAME) (hlen : f.data_len ≤ CAN_MAX_DLEN)
    (hbuf : f.data_len ≤ f.data.length) :
    UDSFrame2ZCAN_body f = some
      { frame := { can_id := MAKE_CAN_ID f.id f.extend f.remote 0, can_dlc := f.data_len,
                   __pad := 0, __res0 := 0, __res1 := 0,
                   data := f.data.take f.data_len ++
                     (List.replicate CAN_MAX_DLEN 0).drop f.data_len },
        other := 0 } := by
  unfold UDSFrame2ZCAN_body
  simp only [ZCAN_Transmit_Data.zeroed]
  rw [memcpy_eq_some (by simpa using hlen) hbuf]
  rfl

theorem UDSFrame2ZCANFD_single (f : ZUDS_FRAME) :
    UDSFrame2ZCANFD [f] 1 = (UDSFrame2ZCANFD_body f).map (fun w => [w]) := by
  unfold UDSFrame2ZCANFD
  have hr : List.range 1 = [0] := rfl
  rw [hr, List.mapM_cons, List.mapM_nil]
  cases h : UDSFrame2ZCANFD_body f <;> simp [h]

theorem UDSFrame2ZCANFD_body_eq (f : ZUDS_FRAME) (hlen : f.data_len ≤ CANFD_MAX_DLEN)
    (hbuf : f.data_len ≤ f.data.length) :
    UDSFrame2ZCANFD_body f = some
      { frame := { can_id := MAKE_CAN_ID f.id f.extend f.remote 0, len := f.data_len,
                   flags := 0, __res0 := 0, __res1 := 0,
                   data := f.data.take f.data_len ++
                     (List.replicate CANFD_MAX_DLEN 0).drop f.data_len },
        other := 0 } := by
  unfold UDSFrame2ZCANFD_body
  simp only [ZCAN_TransmitFD_Data.zeroed]
  rw [memcpy_eq_some (by simpa using hlen) hbuf]
  rfl

theorem ZCAN2UDSFrame_eq (can : ZCAN_Receive_Data) (hlen : can.frame.can_dlc ≤ ZUDS_DATA_LEN)
    (hbuf : can.frame.can_dlc ≤ can.frame.data.length) :
    ZCAN2UDSFrame can = some
      { id := GET_ID can.frame.can_id, extend := IS_EFF can.frame.can_id,
        remote := IS_RTR can.frame.can_id, data_len := can.frame.can_dlc,
        data := can.frame.data.take can.frame.can_dlc ++
          (List.replicate ZUDS_DATA_LEN 0).drop can.frame.can_dlc } := by
  unfold ZCAN2UDSFrame
  simp only [ZUDS_FRAME.zeroed]
  rw [memcpy_eq_some (by simpa using hlen) hbuf]
  rfl

theorem ZCANFD2UDSFrame_eq (canfd : ZCAN_ReceiveFD_Data)
    (hbuf : min canfd.frame.len 8 ≤ canfd.frame.data.length) :
    ZCANFD2UDSFrame canfd = some
      { id := GET_ID canfd.frame.can_id, extend := IS_EFF canfd.frame.can_id,
        remote := IS_RTR canfd.frame.can_id, data_len := min canfd.frame.len 8,
        data := canfd.frame.data.take (min canfd.frame.len 8) ++
          (List.replicate ZUDS_DATA_LEN 0).drop (min canfd.frame.len 8) } := by
  have hclamp : (if canfd.frame.len > 8 then 8 else canfd.frame.len) = min canfd.frame.len 8 := by
    split <;> omega
  unfold ZCANFD2UDSFrame
  simp only [ZUDS_FRAME.zeroed, hclamp]
  rw [memcpy_eq_some (by simp [ZUDS_DATA_LEN]) hbuf]
  rfl

theorem take_take_append_of_le {l t : List Nat} {n : Nat} (h : n ≤ l.length) :
    (l.take n ++ t).take n = l.take n := by
  have hl : (l.take n).length = n := by simp [List.length_take, h]
  exact List.take_left' hl

/-- The classic round trip, computed: every field of the result. -/
theorem classicRoundTrip_eq (f : ZUDS_FRAME) (other : Nat) (hlen : f.data_len ≤ 8)
    (hbuf : f.data.length = ZUDS_DATA_LEN) :
    classicRoundTrip f other = some
      { id := f.id % 2 ^ 29,
        extend := IS_EFF (MAKE_CAN_ID f.id f.extend f.remote 0),
        remote := IS_RTR (MAKE_CAN_ID f.id f.extend f.remote 0),
        data_len := f.data_len,
        data := f.data.take f.data_len ++ List.replicate (ZUDS_DATA_LEN - f.data_len) 0 } := by
  have hb : f.data_len ≤ f.data.length := by rw [hbuf]; simp [ZUDS_DATA_LEN]; omega
  unfold classicRoundTrip
  rw [UDSFrame2ZCAN_single, UDSFrame2ZCAN_body_eq f hlen hb]
  simp only [Option.map_some', Option.bind_eq_bind, Option.some_bind, List.getElem?_cons_zero]
  rw [ZCAN2UDSFrame_eq]
  · simp only [classicLoopback, GET_ID_MAKE_CAN_ID, take_take_append_of_le hb,
      List.drop_replicate]
  · simp [classicLoopback, ZUDS_DATA_LEN]; omega
  · simp [classicLoopback, CAN_MAX_DLEN]; omega

theorem take_take_append_of_le_of_le {l t : List Nat} {m n : Nat} (hmn : m ≤ n)
    (h : n ≤ l.length) : (l.take n ++ t).take m = l.take m := by
  have hl : m ≤ (l.take n).length := by simp [List.length_take]; omega
  rw [List.take_append_of_le_length hl, List.take_take, Nat.min_eq_left hmn]

/-- The FD round trip, computed: every field of the result. -/
theorem fdRoundTrip_eq (f : ZUDS_FRAME) (other : Nat) (hlen : f.data_len ≤ 64)
    (hbuf : f.data.length = ZUDS_DATA_LEN) :
    fdRoundTrip f other = some
      { id := f.id % 2 ^ 29,
        extend := IS_EFF (MAKE_CAN_ID f.id f.extend f.remote 0),
        remote := IS_RTR (MAKE_CAN_ID f.id f.extend f.remote 0),
        data_len := min f.data_len 8,
        data := f.data.take (min f.data_len 8) ++
          List.replicate (ZUDS_DATA_LEN - min f.data_len 8) 0 } := by
  have hb : f.data_len ≤ f.data.length := by rw [hbuf]; simp [ZUDS_DATA_LEN]; omega
  unfold fdRoundTrip
  rw [UDSFrame2ZCANFD_single, UDSFrame2ZCANFD_body_eq f hlen hb]
  simp only [Option.map_some', Option.bind_eq_bind, Option.some_bind, List.getElem?_cons_zero]
  rw [ZCANFD2UDSFrame_eq]
  · simp only [fdLoopback, GET_ID_MAKE_CAN_ID,
      take_take_append_of_le_of_le (Nat.min_le_left _ _) hb, List.drop_replicate]
  · simp [fdLoopback, CANFD_MAX_DLEN]; omega

/-! ## Wire translator: round trips -/

/-- C2, as stated, fails: the canonical frame with id `0x20000000` (bit 29 set),
no flags and an empty payload has payload length 0 <= 8, yet the classic round
trip returns id 0; on the wire the frame carries the error flag. -/
theorem classic_round_trip_loses_id_bit29 :
    frameBit29.data_len ≤ 8 ∧ frameBit29.data.length = ZUDS_DATA_LEN ∧
    frameBit29.id = 0x20000000 ∧
    (UDSFrame2ZCAN [frameBit29] 1).map (fun can => can.map (fun w => IS_ERR w.frame.can_id))
      = some [1] ∧
    classicRoundTrip frameBit29 0 = some { frameBit29 with id := 0 } ∧
    classicRoundTrip frameBit29 0 ≠ some frameBit29 := by
  decide

/-- C2, amended. For every canonical frame `f` with id below `2^29`, payload
length <= 8 and a payload buffer of 64 bytes, translating `f` to a classic wire
frame (`UDSFrame2ZCAN`) and back (`ZCAN2UDSFrame`) returns a frame with the
same id, the same extended and remote flags (as booleans, and as values when
the flag is 0 or 1), the same payload length and the same payload bytes; it is
`f` itself when moreover the flags are 0 or 1 and the buffer of `f` is zero
behind the payload. -/
theorem classic_round_trip (f : ZUDS_FRAME) (other : Nat) (hid : f.id < 2 ^ 29)
    (hlen : f.data_len ≤ 8) (hbuf : f.data.length = ZUDS_DATA_LEN) :
    ∃ r, classicRoundTrip f other = some r ∧
      r.id = f.id ∧
      (r.extend ≠ 0 ↔ f.extend ≠ 0) ∧ (r.remote ≠ 0 ↔ f.remote ≠ 0) ∧
      (f.extend ≤ 1 → r.extend = f.extend) ∧ (f.remote ≤ 1 → r.remote = f.remote) ∧
      r.data_len = f.data_len ∧
      r.payload = f.payload ∧
      (f.extend ≤ 1 → f.remote ≤ 1 →
        f.data.drop f.data_len = List.replicate (ZUDS_DATA_LEN - f.data_len) 0 → r = f) := by
  have hb : f.data_len ≤ f.data.length := by rw [hbuf]; simp [ZUDS_DATA_LEN]; omega
  have hflag : ∀ x : Nat, x ≤ 1 → notNot x = x := by
    intro x hx; unfold notNot; split <;> omega
  refine ⟨_, classicRoundTrip_eq f other hlen hbuf, ?_⟩
  simp only [IS_EFF_MAKE_CAN_ID _ _ _ _ hid, IS_RTR_MAKE_CAN_ID _ _ _ _ hid,
    Nat.mod_eq_of_lt hid, ZUDS_FRAME.payload, take_take_append_of_le hb]
  refine ⟨trivial, notNot_ne_zero_iff _, notNot_ne_zero_iff _, hflag _, hflag _, trivial,
    trivial, ?_⟩
  intro he hr hz
  rw [hflag _ he, hflag _ hr, ← hz, List.take_append_drop]

/-- C2, amended, at the frame `0x701` with extended flag 1 and payload 2, 16, 3. -/
theorem classic_round_trip_witness :
    (0x701 : Nat) < 2 ^ 29 ∧
    ∃ r, classicRoundTrip ⟨0x701, 1, 0, 3, [2, 16, 3] ++ List.replicate 61 0⟩ 7 = some r ∧
      r.id = 0x701 ∧ (r.extend ≠ 0 ↔ (1 : Nat) ≠ 0) ∧ r.data_len = 3 ∧
      r.payload = [2, 16, 3] := by
  refine ⟨by decide, ?_⟩
  obtain ⟨r, h, h1, h2, _, _, _, h3, h4, _⟩ :=
    classic_round_trip ⟨0x701, 1, 0, 3, [2, 16, 3] ++ List.replicate 61 0⟩ 7
      (by decide) (by decide) (by decide)
  exact ⟨r, h, h1, h2, h3, h4⟩

/-- C3, as stated, fails: the canonical frame with id `0x20000000` (bit 29 set)
and an empty payload has payload length 0 <= 8, yet the FD round trip returns
id 0; and the frame `frame12` with that id would keep neither. -/
theorem fd_round_trip_loses_id_bit29 :
    frameBit29.data_len ≤ 64 ∧ frameBit29.data_len ≤ 8 ∧
    frameBit29.data.length = ZUDS_DATA_LEN ∧ frameBit29.id = 0x20000000 ∧
    fdRoundTrip frameBit29 0 = some { frameBit29 with id := 0 } ∧
    fdRoundTrip frameBit29 0 ≠ some frameBit29 ∧
    (fdRoundTrip { frame12 with id := 0x20000701 } 0).map (fun r => r.id) = some 0x701 := by
  decide

/-- C3, amended. For every canonical frame `f` with id below `2^29`, payload
length <= 64 and a payload buffer of 64 bytes, translating `f` to an FD wire
frame (`UDSFrame2ZCANFD`) and back (`ZCANFD2UDSFrame`) returns a frame with the
same id and the same extended and remote flags (as booleans, and as values when
the flag is 0 or 1); when the length is <= 8 it has the same payload length and
payload bytes (and is `f` itself when the flags are 0 or 1 and the buffer of
`f` is zero behind the payload); when the length is > 8 it has payload length 8
and as payload exactly the first 8 bytes of the payload of `f`. -/
theorem fd_round_trip_clamp (f : ZUDS_FRAME) (other : Nat) (hid : f.id < 2 ^ 29)
    (hlen : f.data_len ≤ 64) (hbuf : f.data.length = ZUDS_DATA_LEN) :
    ∃ r, fdRoundTrip f other = some r ∧
      r.id = f.id ∧
      (r.extend ≠ 0 ↔ f.extend ≠ 0) ∧ (r.remote ≠ 0 ↔ f.remote ≠ 0) ∧
      (f.extend ≤ 1 → r.extend = f.extend) ∧ (f.remote ≤ 1 → r.remote = f.remote) ∧
      (f.data_len ≤ 8 →
        r.data_len = f.data_len ∧ r.payload = f.payload ∧
        (f.extend ≤ 1 → f.remote ≤ 1 →
          f.data.drop f.data_len = List.replicate (ZUDS_DATA_LEN - f.data_len) 0 → r = f)) ∧
      (8 < f.data_len →
        r.data_len = 8 ∧ r.payload = f.payload.take 8 ∧ r.payload.length = 8) := by
  have hb : f.data_len ≤ f.data.length := by rw [hbuf]; simp [ZUDS_DATA_LEN]; omega
  have hflag : ∀ x : Nat, x ≤ 1 → notNot x = x := by
    intro x hx; unfold notNot; split <;> omega
  refine ⟨_, fdRoundTrip_eq f other hlen hbuf, ?_⟩
  simp only [IS_EFF_MAKE_CAN_ID _ _ _ _ hid, IS_RTR_MAKE_CAN_ID _ _ _ _ hid,
    Nat.mod_eq_of_lt hid, ZUDS_FRAME.payload]
  refine ⟨trivial, notNot_ne_zero_iff _, notNot_ne_zero_iff _, hflag _, hflag _, ?_, ?_⟩
  · intro h8
    rw [Nat.min_eq_left h8, take_take_append_of_le hb]
    refine ⟨rfl, rfl, ?_⟩
    intro he hr hz
    rw [hflag _ he, hflag _ hr, ← hz, List.take_append_drop]
  · intro h8
    have hmin : min f.data_len 8 = 8 := Nat.min_eq_right (Nat.le_of_lt h8)
    have h8b : 8 ≤ f.data.length := by omega
    rw [hmin, take_take_append_of_le h8b, List.take_take, Nat.min_eq_left (Nat.le_of_lt h8)]
    exact ⟨rfl, rfl, by simp [List.length_take, h8b]⟩

/-- C3, amended, at the frame `frame12` (12 payload bytes `1 .. 12`). -/
theorem fd_round_trip_clamp_witness :
    frame12.id < 2 ^ 29 ∧ frame12.data_len ≤ 64 ∧ 8 < frame12.data_len ∧
    ∃ r, fdRoundTrip frame12 0 = some r ∧ r.id = frame12.id ∧ r.data_len = 8 ∧
      r.payload = [1, 2, 3, 4, 5, 6, 7, 8] := by
  refine ⟨by decide, by decide, by decide, ?_⟩
  obtain ⟨r, h, h1, _, _, _, _, _, h2⟩ :=
    fd_round_trip_clamp frame12 0 (by decide) (by decide) (by decide)
  obtain ⟨h3, h4, _⟩ := h2 (by decide)
  exact ⟨r, h, h1, h3, by rw [h4]; decide⟩

/-! ## Inbound translation and the error-frame flag -/

/-- Two identifier words that agree on every bit except bit 29 decode to the
same id, extended flag and remote flag. -/
theorem decode_eq_of_agree_except_bit29 {c c' : Nat}
    (h : ∀ i, i ≠ 29 → c'.testBit i = c.testBit i) :
    GET_ID c' = GET_ID c ∧ IS_EFF c' = IS_EFF c ∧ IS_RTR c' = IS_RTR c := by
  refine ⟨?_, ?_, ?_⟩
  · rw [GET_ID_eq_mod, GET_ID_eq_mod]
    apply Nat.eq_of_testBit_eq
    intro i
    simp only [Nat.testBit_mod_two_pow]
    by_cases hi : i < 29
    · rw [h i (by omega)]
    · simp [hi]
  · rw [IS_EFF_eq_testBit, IS_EFF_eq_testBit, h 31 (by decide)]
  · rw [IS_RTR_eq_testBit, IS_RTR_eq_testBit, h 30 (by decide)]

theorem xor_err_flag_agree (c i : Nat) (hi : i ≠ 29) :
    (c ^^^ CAN_ERR_FLAG).testBit i = c.testBit i := by
  have hflag : CAN_ERR_FLAG = 2 ^ 29 := rfl
  rw [Nat.testBit_xor, hflag, Nat.testBit_two_pow_of_ne (Ne.symm hi)]
  simp

/-! ## Transmit path -/

theorem mapM_some_of_forall {α β : Type} (g : α → Option β) (l : List α)
    (h : ∀ a ∈ l, ∃ b, g a = some b) : ∃ bs, l.mapM g = some bs ∧ bs.length = l.length := by
  induction l with
  | nil => exact ⟨[], by rw [List.mapM_nil]; rfl, rfl⟩
  | cons a t ih =>
    obtain ⟨b, hb⟩ := h a (List.mem_cons_self a t)
    obtain ⟨bs, hbs, hl⟩ := ih (fun x hx => h x (List.mem_cons_of_mem a hx))
    refine ⟨b :: bs, ?_, by simp [hl]⟩
    rw [List.mapM_cons, hb, hbs]
    rfl

theorem batch_getElem (cap : Nat) (frame : List ZUDS_FRAME) (count i : Nat)
    (h : BatchFits cap frame count) (hi : i ∈ List.range count) :
    ∃ f, frame[i]? = some f ∧ f.data_len ≤ cap ∧ f.data_len ≤ f.data.length := by
  have hic : i < count := List.mem_range.mp hi
  have hil : i < frame.length := lt_of_lt_of_le hic h.1
  refine ⟨frame[i], List.getElem?_eq_getElem hil, h.2 _ ?_⟩
  apply List.getElem?_mem (n := i)
  rw [List.getElem?_take_of_lt hic, List.getElem?_eq_getElem hil]

/-- A batch that fits classic frames is translated, into `count` wire frames. -/
theorem UDSFrame2ZCAN_some (frame : List ZUDS_FRAME) (count : Nat)
    (h : BatchFits CAN_MAX_DLEN frame count) :
    ∃ can, UDSFrame2ZCAN frame count = some can ∧ can.length = count := by
  unfold UDSFrame2ZCAN
  have := mapM_some_of_forall (fun i => frame[i]? >>= UDSFrame2ZCAN_body) (List.range count)
    (by
      intro i hi
      obtain ⟨f, hf, h1, h2⟩ := batch_getElem _ frame count i h hi
      exact ⟨_, by show frame[i]? >>= UDSFrame2ZCAN_body = _
                   rw [hf]; exact UDSFrame2ZCAN_body_eq f h1 h2⟩)
  simpa using this

/-- A batch that fits FD frames is translated, into `count` wire frames. -/
theorem UDSFrame2ZCANFD_some (frame : List ZUDS_FRAME) (count : Nat)
    (h : BatchFits CANFD_MAX_DLEN frame count) :
    ∃ canfd, UDSFrame2ZCANFD frame count = some canfd ∧ canfd.length = count := by
  unfold UDSFrame2ZCANFD
  have := mapM_some_of_forall (fun i => frame[i]? >>= UDSFrame2ZCANFD_body) (List.range count)
    (by
      intro i hi
      obtain ⟨f, hf, h1, h2⟩ := batch_getElem _ frame count i h hi
      exact ⟨_, by show frame[i]? >>= UDSFrame2ZCANFD_body = _
                   rw [hf]; exact UDSFrame2ZCANFD_body_eq f h1 h2⟩)
  simpa using this

theorem transportCode_iff (count accepted : Nat) :
    ((if count = accepted then TransportCode.TRANSPORT_OK else TransportCode.TRANSPORT_ERROR)
        = TransportCode.TRANSPORT_OK ↔ accepted = count) ∧
    ((if count = accepted then TransportCode.TRANSPORT_OK else TransportCode.TRANSPORT_ERROR)
        = TransportCode.TRANSPORT_ERROR ↔ accepted ≠ count) := by
  by_cases h : count = accepted
  · subst h; simp
  · have h2 : accepted ≠ count := fun e => h e.symm
    simp [h, h2]

/-- C4. For every version, every batch of `count` frames that fits the wire
format of that version, and every pair of device senders (so every
accepted-count they may return), `transmit` makes exactly one device call with
the whole batch and returns `TRANSPORT_OK` exactly when the device accepted
`count` frames, and `TRANSPORT_ERROR` for every other accepted-count. -/
theorem transmit_batch_atomic (VERSION_0 format_version : Int)
    (ZCAN_Transmit : List ZCAN_Transmit_Data → Nat → Nat)
    (ZCAN_TransmitFD : List ZCAN_TransmitFD_Data → Nat → Nat)
    (frame : List ZUDS_FRAME) (count : Nat)
    (hfit : BatchFits (if VERSION_0 = format_version then CAN_MAX_DLEN else CANFD_MAX_DLEN)
      frame count) :
    ∃ code call,
      transmit VERSION_0 format_version ZCAN_Transmit ZCAN_TransmitFD frame count
        = some (code, [call]) ∧
      call.count = count ∧ call.batchLength = count ∧
      (code = TransportCode.TRANSPORT_OK ↔
        call.accepted ZCAN_Transmit ZCAN_TransmitFD = count) ∧
      (code = TransportCode.TRANSPORT_ERROR ↔
        call.accepted ZCAN_Transmit ZCAN_TransmitFD ≠ count) := by
  unfold transmit
  by_cases hv : VERSION_0 = format_version
  · rw [if_pos hv] at hfit ⊢
    obtain ⟨can, hcan, hl⟩ := UDSFrame2ZCAN_some frame count hfit
    rw [hcan]
    exact ⟨_, _, rfl, rfl, hl, (transportCode_iff count _).1, (transportCode_iff count _).2⟩
  · rw [if_neg hv] at hfit ⊢
    obtain ⟨canfd, hcan, hl⟩ := UDSFrame2ZCANFD_some frame count hfit
    rw [hcan]
    exact ⟨_, _, rfl, rfl, hl, (transportCode_iff count _).1, (transportCode_iff count _).2⟩

/-- C4, at a batch of two frames of which the classic device accepts one:
partial acceptance is reported as `TRANSPORT_ERROR`. -/
theorem transmit_batch_atomic_witness :
    BatchFits (if (0 : Int) = 0 then CAN_MAX_DLEN else CANFD_MAX_DLEN)
      [frameBit29, frameBit29] 2 ∧
    transmit 0 0 (fun _ _ => 1) (fun _ n => n) [frameBit29, frameBit29] 2
      = (UDSFrame2ZCAN [frameBit29, frameBit29] 2).map
          (fun can => (TransportCode.TRANSPORT_ERROR, [DeviceCall.ZCAN_Transmit can 2])) ∧
    ∃ code call,
      transmit 0 0 (fun _ _ => 1) (fun _ n => n) [frameBit29, frameBit29] 2
        = some (code, [call]) ∧
      call.count = 2 ∧ call.batchLength = 2 ∧
      (code = TransportCode.TRANSPORT_OK ↔
        call.accepted (fun _ _ => 1) (fun _ n => n) = 2) ∧
      (code = TransportCode.TRANSPORT_ERROR ↔
        call.accepted (fun _ _ => 1) (fun _ n => n) ≠ 2) :=
  ⟨by decide, by decide,
    transmit_batch_atomic 0 0 (fun _ _ => 1) (fun _ n => n) [frameBit29, frameBit29] 2
      (by decide)⟩

theorem segmentationParams_start (VERSION_0 : Int) (tcstoul16 : String → Nat)
    (openDevice : Bool) (ui : DialogData) (s : CdemoDlg)
    (hdev : s.device_enable_ = true ∨ openDevice = true) :
    segmentationParams (OnBnClickedButtonStart VERSION_0 tcstoul16 openDevice ui s).2
      = some { block_size := ui.bs_, fill_byte := tcstoul16 ui.fill_byte_,
               st_min := ui.stmin_, frame_type := ui.is_ext_frame_,
               version := s.format_ctrl_,
               max_data_len := if VERSION_0 = s.format_ctrl_ then 8 else 64 } ∧
    (OnBnClickedButtonStart VERSION_0 tcstoul16 openDevice ui s).1.format_version
      = s.format_ctrl_ := by
  unfold OnBnClickedButtonStart
  cases hd : s.device_enable_ with
  | true =>
    simp [hd, UpdateData, segmentationParams, startSessionKeep]
    split <;> rfl
  | false =>
    have ho : openDevice = true := by
      rcases hdev with h | h
      · rw [hd] at h; exact absurd h (by decide)
      · exact h
    simp [hd, ho, UpdateData, segmentationParams, startSessionKeep]
    split <;> rfl

/-- The second call the start button makes into the session library hands over
the session timing: `timeout` is `p2_timeout_` and `enhanced_timeout` is
`p2_more_`, as read from the controls. -/
theorem start_hands_over_session_timing (VERSION_0 : Int) (tcstoul16 : String → Nat)
    (openDevice : Bool) (ui : DialogData) (s : CdemoDlg)
    (hdev : s.device_enable_ = true ∨ openDevice = true) :
    (OnBnClickedButtonStart VERSION_0 tcstoul16 openDevice ui s).2[1]?
      = some (UdsCall.SetParam_SESSION
          { enhanced_timeout := ui.p2_more_, timeout := ui.p2_timeout_ }) := by
  unfold OnBnClickedButtonStart
  cases hd : s.device_enable_ with
  | true =>
    simp [hd, UpdateData, startSessionKeep]
  | false =>
    have ho : openDevice = true := by
      rcases hdev with h | h
      · rw [hd] at h; exact absurd h (by decide)
      · exact h
    simp [hd, ho, UpdateData, startSessionKeep]

/-! ## Protocol version, wire format and maximum payload -/

/-- C5. For every version value selected when the start button is handled (and
the device open), the segmentation parameters handed to the session library
carry that version, `transmit` reads the same version, and for every batch
that fits the payload of that version `transmit` makes exactly one device
call: `max_data_len` is 8 exactly when that call is the classic sender (which
is exactly when the version is `VERSION_0`) and 64 exactly when it is the FD
sender (every other version). -/
theorem version_fixes_wire_format_and_max_payload (VERSION_0 : Int)
    (tcstoul16 : String → Nat) (openDevice : Bool) (ui : DialogData) (s : CdemoDlg)
    (ZCAN_Transmit : List ZCAN_Transmit_Data → Nat → Nat)
    (ZCAN_TransmitFD : List ZCAN_TransmitFD_Data → Nat → Nat)
    (frame : List ZUDS_FRAME) (count : Nat)
    (hdev : s.device_enable_ = true ∨ openDevice = true)
    (hfit : BatchFits (if VERSION_0 = s.format_ctrl_ then CAN_MAX_DLEN else CANFD_MAX_DLEN)
      frame count) :
    ∃ tp code call,
      segmentationParams (OnBnClickedButtonStart VERSION_0 tcstoul16 openDevice ui s).2
        = some tp ∧
      tp.version = (OnBnClickedButtonStart VERSION_0 tcstoul16 openDevice ui s).1.format_version ∧
      tp.version = s.format_ctrl_ ∧
      transmit VERSION_0
          (OnBnClickedButtonStart VERSION_0 tcstoul16 openDevice ui s).1.format_version
          ZCAN_Transmit ZCAN_TransmitFD frame count = some (code, [call]) ∧
      (tp.max_data_len = 8 ↔ ∃ can, call = DeviceCall.ZCAN_Transmit can count) ∧
      (tp.max_data_len = 64 ↔ ∃ canfd, call = DeviceCall.ZCAN_TransmitFD canfd count) ∧
      (tp.max_data_len = 8 ↔ VERSION_0 = tp.version) ∧
      (tp.max_data_len = 64 ↔ VERSION_0 ≠ tp.version) := by
  obtain ⟨htp, hfv⟩ := segmentationParams_start VERSION_0 tcstoul16 openDevice ui s hdev
  rw [htp, hfv]
  unfold transmit
  by_cases hv : VERSION_0 = s.format_ctrl_
  · rw [if_pos hv] at hfit
    obtain ⟨can, hcan, _⟩ := UDSFrame2ZCAN_some frame count hfit
    refine ⟨_, (if count = ZCAN_Transmit can count then TransportCode.TRANSPORT_OK
      else TransportCode.TRANSPORT_ERROR), DeviceCall.ZCAN_Transmit can count,
      rfl, rfl, rfl, ?_, ?_⟩
    · rw [if_pos hv, hcan]; rfl
    · simp [hv]
  · rw [if_neg hv] at hfit
    obtain ⟨canfd, hcan, _⟩ := UDSFrame2ZCANFD_some frame count hfit
    refine ⟨_, (if count = ZCAN_TransmitFD canfd count then TransportCode.TRANSPORT_OK
      else TransportCode.TRANSPORT_ERROR), DeviceCall.ZCAN_TransmitFD canfd count,
      rfl, rfl, rfl, ?_, ?_⟩
    · rw [if_neg hv, hcan]; rfl
    · simp [hv]

/-- C5, at the initial dialog with the device opening, once with selection 0
as `VERSION_0` (classic, 8) and the frame `frameBit29`. -/
theorem version_fixes_wire_format_and_max_payload_witness :
    ((CdemoDlg.initial 5).device_enable_ = true ∨ true = true) ∧
    BatchFits (if (0 : Int) = (CdemoDlg.initial 5).format_ctrl_ then CAN_MAX_DLEN
      else CANFD_MAX_DLEN) [frameBit29] 1 ∧
    ∃ tp code call,
      segmentationParams (OnBnClickedButtonStart 0 (fun _ => 0x700) true
        ⟨"700", "701", "7DF", 0, 2000, 1, 2000, 5000, 20, 0, "CC"⟩ (CdemoDlg.initial 5)).2
        = some tp ∧
      tp.version = (OnBnClickedButtonStart 0 (fun _ => 0x700) true
        ⟨"700", "701", "7DF", 0, 2000, 1, 2000, 5000, 20, 0, "CC"⟩
        (CdemoDlg.initial 5)).1.format_version ∧
      tp.version = (CdemoDlg.initial 5).format_ctrl_ ∧
      transmit 0
          (OnBnClickedButtonStart 0 (fun _ => 0x700) true
            ⟨"700", "701", "7DF", 0, 2000, 1, 2000, 5000, 20, 0, "CC"⟩
            (CdemoDlg.initial 5)).1.format_version
          (fun _ n => n) (fun _ n => n) [frameBit29] 1 = some (code, [call]) ∧
      (tp.max_data_len = 8 ↔ ∃ can, call = DeviceCall.ZCAN_Transmit can 1) ∧
      (tp.max_data_len = 64 ↔ ∃ canfd, call = DeviceCall.ZCAN_TransmitFD canfd 1) ∧
      (tp.max_data_len = 8 ↔ (0 : Int) = tp.version) ∧
      (tp.max_data_len = 64 ↔ (0 : Int) ≠ tp.version) :=
  ⟨by decide, by decide,
    version_fixes_wire_format_and_max_payload 0 (fun _ => 0x700) true
      ⟨"700", "701", "7DF", 0, 2000, 1, 2000, 5000, 20, 0, "CC"⟩ (CdemoDlg.initial 5)
      (fun _ n => n) (fun _ n => n) [frameBit29] 1 (by decide) (by decide)⟩

/-! ## Keep-alive configuration -/

theorem startSessionKeep_calls (tcstoul16 : String → Nat) (s : CdemoDlg) :
    (startSessionKeep tcstoul16 s).2 =
      (if s.session_keep_running_ = true then [UdsCall.SetTesterPresent 0 none] else []) ++
      (if s.session_keep_enable_ ≠ 0 then
        [UdsCall.SetTesterPresent 1 (some
          { addr := tcstoul16 (if s.session_keep_addr_ctrl_ ≠ 0 then s.functional_addr_
                               else s.physical_addr_),
            cycle := s.session_keep_period_, suppress_response := 1 })]
       else []) := by
  unfold startSessionKeep
  by_cases he : s.session_keep_enable_ ≠ 0
  · rw [if_pos he, if_pos he]
  · rw [if_neg he, if_neg he]; simp

theorem startSessionKeep_running (tcstoul16 : String → Nat) (s : CdemoDlg) :
    (startSessionKeep tcstoul16 s).1.session_keep_running_
      = decide (s.session_keep_enable_ ≠ 0) := by
  unfold startSessionKeep
  by_cases he : s.session_keep_enable_ ≠ 0
  · rw [if_pos he]; simp [he]
  · rw [if_neg he]; simp [he]

/-- C6. For every dialog state and every enabled value: when a timer is
running at the call of `startSessionKeep`, the first call into the session
library is the cancel (`ZUDS_SetTesterPresent` with enable 0) and every arm
(non-zero enable) stands behind it; with enabled set the calls are exactly the
cancel followed by the arm, with enabled clear exactly the cancel; when no
timer is running no cancel is issued, and the calls are the arm alone (enabled
set) or none. -/
theorem startSessionKeep_cancels_first (tcstoul16 : String → Nat) (s : CdemoDlg) :
    (s.session_keep_running_ = true →
      (startSessionKeep tcstoul16 s).2.head? = some (UdsCall.SetTesterPresent 0 none) ∧
      (∀ i e p, (startSessionKeep tcstoul16 s).2[i]? = some (UdsCall.SetTesterPresent e p) →
        e ≠ 0 → 0 < i) ∧
      (s.session_keep_enable_ ≠ 0 →
        (startSessionKeep tcstoul16 s).2 =
          [UdsCall.SetTesterPresent 0 none,
           UdsCall.SetTesterPresent 1 (some
            { addr := tcstoul16 (if s.session_keep_addr_ctrl_ ≠ 0 then s.functional_addr_
                                 else s.physical_addr_),
              cycle := s.session_keep_period_, suppress_response := 1 })]) ∧
      (s.session_keep_enable_ = 0 →
        (startSessionKeep tcstoul16 s).2 = [UdsCall.SetTesterPresent 0 none])) ∧
    (s.session_keep_running_ = false →
      (∀ p, UdsCall.SetTesterPresent 0 p ∉ (startSessionKeep tcstoul16 s).2) ∧
      (s.session_keep_enable_ ≠ 0 →
        (startSessionKeep tcstoul16 s).2 =
          [UdsCall.SetTesterPresent 1 (some
            { addr := tcstoul16 (if s.session_keep_addr_ctrl_ ≠ 0 then s.functional_addr_
                                 else s.physical_addr_),
              cycle := s.session_keep_period_, suppress_response := 1 })]) ∧
      (s.session_keep_enable_ = 0 → (startSessionKeep tcstoul16 s).2 = [])) := by
  rw [startSessionKeep_calls]
  constructor
  · intro hr
    rw [if_pos hr]
    refine ⟨rfl, ?_, ?_, ?_⟩
    · intro i e p hi he
      cases i with
      | zero =>
        simp only [List.singleton_append, List.getElem?_cons_zero, Option.some.injEq,
          UdsCall.SetTesterPresent.injEq] at hi
        exact absurd hi.1.symm he
      | succ n => exact Nat.succ_pos n
    · intro he; rw [if_pos he]; rfl
    · intro he; rw [if_neg (not_not.mpr he)]; rfl
  · intro hr
    have hr2 : ¬ s.session_keep_running_ = true := by rw [hr]; decide
    rw [if_neg hr2]
    refine ⟨?_, ?_, ?_⟩
    · intro p
      by_cases he : s.session_keep_enable_ ≠ 0
      · rw [if_pos he]; simp
      · rw [if_neg he]; simp
    · intro he; rw [if_pos he]; rfl
    · intro he; rw [if_neg (not_not.mpr he)]; rfl

/-- One reconfiguration keeps the timer count in step with the running flag,
and the running flag is the enabled value read. -/
theorem keepAliveStep_inv (tcstoul16 : String → Nat) (st : CdemoDlg × Nat) (ui : DialogData)
    (hinv : st.2 = if st.1.session_keep_running_ = true then 1 else 0) :
    (keepAliveStep tcstoul16 st ui).1.session_keep_running_
        = decide (ui.session_keep_enable_ ≠ 0) ∧
    (keepAliveStep tcstoul16 st ui).2
        = if (keepAliveStep tcstoul16 st ui).1.session_keep_running_ = true then 1 else 0 := by
  unfold keepAliveStep
  simp only [startSessionKeep_running, startSessionKeep_calls]
  have hu1 : (UpdateData ui st.1).session_keep_enable_ = ui.session_keep_enable_ := rfl
  have hu2 : (UpdateData ui st.1).session_keep_running_ = st.1.session_keep_running_ := rfl
  rw [hu1, hu2, hinv]
  refine ⟨rfl, ?_⟩
  by_cases he : ui.session_keep_enable_ ≠ 0 <;>
    cases st.1.session_keep_running_ <;> simp [he, armedTimersAfter]

theorem keepAliveRun_inv (tcstoul16 : String → Nat) (uis : List DialogData) :
    ∀ st : CdemoDlg × Nat,
      st.2 = (if st.1.session_keep_running_ = true then 1 else 0) →
      (keepAliveRun tcstoul16 st uis).2
        = if (keepAliveRun tcstoul16 st uis).1.session_keep_running_ = true then 1 else 0 := by
  induction uis with
  | nil => intro st h; exact h
  | cons ui rest ih =>
    intro st h
    exact ih (keepAliveStep tcstoul16 st ui) (keepAliveStep_inv tcstoul16 st ui h).2

/-- C7. Starting from a dialog state with the running flag false and no timer
armed (such as the initial one), after every call of a finite sequence of
keep-alive reconfigurations with arbitrary enabled values the running flag
equals the enabled value of that call, and the number of armed timers is 1
when running is true and 0 when it is false, so never above 1. -/
theorem keepAlive_no_duplicate_timers (tcstoul16 : String → Nat) (s₀ : CdemoDlg)
    (uis : List DialogData) (ui : DialogData) (h₀ : s₀.session_keep_running_ = false) :
    (keepAliveRun tcstoul16 (s₀, 0) (uis ++ [ui])).1.session_keep_running_
        = decide (ui.session_keep_enable_ ≠ 0) ∧
    (keepAliveRun tcstoul16 (s₀, 0) (uis ++ [ui])).2
        = (if (keepAliveRun tcstoul16 (s₀, 0) (uis ++ [ui])).1.session_keep_running_ = true
           then 1 else 0) ∧
    (keepAliveRun tcstoul16 (s₀, 0) (uis ++ [ui])).2 ≤ 1 := by
  have hinit : ((s₀, 0) : CdemoDlg × Nat).2
      = if ((s₀, 0) : CdemoDlg × Nat).1.session_keep_running_ = true then 1 else 0 := by
    simp [h₀]
  have hpre := keepAliveRun_inv tcstoul16 uis (s₀, 0) hinit
  have hrun : keepAliveRun tcstoul16 (s₀, 0) (uis ++ [ui])
      = keepAliveStep tcstoul16 (keepAliveRun tcstoul16 (s₀, 0) uis) ui := by
    simp [keepAliveRun, List.foldl_append]
  rw [hrun]
  obtain ⟨h1, h2⟩ := keepAliveStep_inv tcstoul16 _ ui hpre
  refine ⟨h1, h2, ?_⟩
  rw [h2]; split <;> omega

/-- C7, at the initial dialog and the sequence enabled, enabled, enabled. -/
theorem keepAlive_no_duplicate_timers_witness :
    (CdemoDlg.initial 0).session_keep_running_ = false ∧
    (keepAliveRun (fun _ => 0x700) (CdemoDlg.initial 0, 0)
      ([⟨"700", "701", "7DF", 0, 2000, 1, 2000, 5000, 20, 0, "CC"⟩,
        ⟨"700", "701", "7DF", 0, 2000, 1, 2000, 5000, 20, 0, "CC"⟩] ++
       [⟨"700", "701", "7DF", 0, 2000, 1, 2000, 5000, 20, 0, "CC"⟩])).2 ≤ 1 ∧
    (keepAliveRun (fun _ => 0x700) (CdemoDlg.initial 0, 0)
      ([⟨"700", "701", "7DF", 0, 2000, 1, 2000, 5000, 20, 0, "CC"⟩,
        ⟨"700", "701", "7DF", 0, 2000, 1, 2000, 5000, 20, 0, "CC"⟩] ++
       [⟨"700", "701", "7DF", 0, 2000, 1, 2000, 5000, 20, 0, "CC"⟩])).1.session_keep_running_
      = true :=
  ⟨rfl,
    (keepAlive_no_duplicate_timers (fun _ => 0x700) (CdemoDlg.initial 0)
      [⟨"700", "701", "7DF", 0, 2000, 1, 2000, 5000, 20, 0, "CC"⟩,
       ⟨"700", "701", "7DF", 0, 2000, 1, 2000, 5000, 20, 0, "CC"⟩]
      ⟨"700", "701", "7DF", 0, 2000, 1, 2000, 5000, 20, 0, "CC"⟩ rfl).2.2,
    (keepAlive_no_duplicate_timers (fun _ => 0x700) (CdemoDlg.initial 0)
      [⟨"700", "701", "7DF", 0, 2000, 1, 2000, 5000, 20, 0, "CC"⟩,
       ⟨"700", "701", "7DF", 0, 2000, 1, 2000, 5000, 20, 0, "CC"⟩]
      ⟨"700", "701", "7DF", 0, 2000, 1, 2000, 5000, 20, 0, "CC"⟩ rfl).1⟩

/-! ## Receive loop -/

/-- C9. One iteration of the receive loop with the device enabled, for every
pair of poll results whose frames stay inside their buffers (a classic frame
received has `can_dlc <= 8`): the iteration completes, the frames handed to
`ZUDS_OnReceive` are exactly the translation of the classic frame (if one was
received) followed by the translation of the FD frame (if one was received),
nothing else, and the loop sleeps in that iteration exactly when neither poll
yielded a frame. -/
theorem frameReceive_iteration_in_order (rx : Nat × ZCAN_Receive_Data)
    (rxfd : Nat × ZCAN_ReceiveFD_Data)
    (hdlc : rx.1 = 1 → rx.2.frame.can_dlc ≤ CAN_MAX_DLEN)
    (hbuf : rx.1 = 1 → rx.2.frame.data.length = CAN_MAX_DLEN)
    (hbuffd : rxfd.1 = 1 → rxfd.2.frame.data.length = CANFD_MAX_DLEN) :
    (∀ c, polled rx = some c → ∃ f, ZCAN2UDSFrame c = some f) ∧
    (∀ d, polled rxfd = some d → ∃ f, ZCANFD2UDSFrame d = some f) ∧
    ∃ evs, frameReceive_iteration true rx rxfd = some evs ∧
      evs = ((polled rx).toList.filterMap ZCAN2UDSFrame).map RxEvent.ZUDS_OnReceive ++
            ((polled rxfd).toList.filterMap ZCANFD2UDSFrame).map RxEvent.ZUDS_OnReceive ++
            (if polled rx = none ∧ polled rxfd = none then [RxEvent.sleep_for 2] else []) ∧
      ((∃ ms, RxEvent.sleep_for ms ∈ evs) ↔ polled rx = none ∧ polled rxfd = none) := by
  have hc : ∀ c, polled rx = some c → ∃ f, ZCAN2UDSFrame c = some f := by
    intro c hc
    unfold polled at hc
    split at hc
    · rename_i h1
      cases hc
      refine ⟨_, ZCAN2UDSFrame_eq rx.2 ?_ ?_⟩
      · have := hdlc h1.symm
        simp only [CAN_MAX_DLEN] at this
        simp only [ZUDS_DATA_LEN]; omega
      · rw [hbuf h1.symm]; exact hdlc h1.symm
    · cases hc
  have hd : ∀ d, polled rxfd = some d → ∃ f, ZCANFD2UDSFrame d = some f := by
    intro d hd
    unfold polled at hd
    split at hd
    · rename_i h1
      cases hd
      refine ⟨_, ZCANFD2UDSFrame_eq rxfd.2 ?_⟩
      rw [hbuffd h1.symm]; simp only [CANFD_MAX_DLEN]; omega
    · cases hd
  refine ⟨hc, hd, ?_⟩
  unfold frameReceive_iteration
  by_cases h1 : rx.1 = 1 <;> by_cases h2 : rxfd.1 = 1
  · obtain ⟨f, hf⟩ := hc rx.2 (by simp [polled, h1])
    obtain ⟨g, hg⟩ := hd rxfd.2 (by simp [polled, h2])
    simp [polled, h1, h2, hf, hg]
  · obtain ⟨f, hf⟩ := hc rx.2 (by simp [polled, h1])
    have h2' : ¬ 1 = rxfd.1 := fun e => h2 e.symm
    simp [polled, h1, h2', hf]
  · obtain ⟨g, hg⟩ := hd rxfd.2 (by simp [polled, h2])
    have h1' : ¬ 1 = rx.1 := fun e => h1 e.symm
    simp [polled, h1', h2, hg]
  · have h1' : ¬ 1 = rx.1 := fun e => h1 e.symm
    have h2' : ¬ 1 = rxfd.1 := fun e => h2 e.symm
    simp [polled, h1', h2']

/-- C9, at an iteration in which both polls deliver a frame. -/
theorem frameReceive_iteration_in_order_witness :
    (((1 : Nat), rxClassic701).1 = 1 → rxClassic701.frame.can_dlc ≤ CAN_MAX_DLEN) ∧
    (((1 : Nat), rxClassic701).1 = 1 → rxClassic701.frame.data.length = CAN_MAX_DLEN) ∧
    (((1 : Nat), rxFd18DAF110).1 = 1 → rxFd18DAF110.frame.data.length = CANFD_MAX_DLEN) ∧
    frameReceive_iteration true (1, rxClassic701) (1, rxFd18DAF110) = some
      [RxEvent.ZUDS_OnReceive ⟨0x701, 0, 0, 3, [0x02, 0x50, 0x01] ++ List.replicate 61 0⟩,
       RxEvent.ZUDS_OnReceive
        ⟨0x18DAF110, 1, 0, 8, [1, 2, 3, 4, 5, 6, 7, 8] ++ List.replicate 56 0⟩] ∧
    ∃ evs, frameReceive_iteration true (1, rxClassic701) (1, rxFd18DAF110) = some evs ∧
      evs = ((polled ((1 : Nat), rxClassic701)).toList.filterMap ZCAN2UDSFrame).map
              RxEvent.ZUDS_OnReceive ++
            ((polled ((1 : Nat), rxFd18DAF110)).toList.filterMap ZCANFD2UDSFrame).map
              RxEvent.ZUDS_OnReceive ++
            (if polled ((1 : Nat), rxClassic701) = none ∧ polled ((1 : Nat), rxFd18DAF110) = none
              then [RxEvent.sleep_for 2] else []) ∧
      ((∃ ms, RxEvent.sleep_for ms ∈ evs) ↔
        polled ((1 : Nat), rxClassic701) = none ∧ polled ((1 : Nat), rxFd18DAF110) = none) :=
  ⟨fun _ => by decide, fun _ => by decide, fun _ => by decide, by decide,
    (frameReceive_iteration_in_order (1, rxClassic701) (1, rxFd18DAF110)
      (fun _ => by decide) (fun _ => by decide) (fun _ => by decide)).2.2⟩

/-! ## Inbound translation and the error-frame flag: the claim -/

/-- C10. For every classic wire frame `w` and every FD wire frame `d`, a wire
frame that differs from it in bit 29 of `can_id` at most (every other bit of
`can_id` and every other member equal) is translated by `ZCAN2UDSFrame`
(respectively `ZCANFD2UDSFrame`) to the same canonical frame; in particular the
frame with the error flag toggled is: an error frame is handed on as the data
frame with the same id, flags and payload. -/
theorem inbound_translation_ignores_error_flag (w : ZCAN_Receive_Data)
    (d : ZCAN_ReceiveFD_Data) (c c' : Nat)
    (hc : ∀ i, i ≠ 29 → c.testBit i = w.frame.can_id.testBit i)
    (hc' : ∀ i, i ≠ 29 → c'.testBit i = d.frame.can_id.testBit i) :
    ZCAN2UDSFrame { w with frame := { w.frame with can_id := c } } = ZCAN2UDSFrame w ∧
    ZCANFD2UDSFrame { d with frame := { d.frame with can_id := c' } } = ZCANFD2UDSFrame d ∧
    ZCAN2UDSFrame { w with frame := { w.frame with can_id := w.frame.can_id ^^^ CAN_ERR_FLAG } }
      = ZCAN2UDSFrame w ∧
    ZCANFD2UDSFrame
        { d with frame := { d.frame with can_id := d.frame.can_id ^^^ CAN_ERR_FLAG } }
      = ZCANFD2UDSFrame d := by
  have classic : ∀ x, (∀ i, i ≠ 29 → x.testBit i = w.frame.can_id.testBit i) →
      ZCAN2UDSFrame { w with frame := { w.frame with can_id := x } } = ZCAN2UDSFrame w := by
    intro x hx
    obtain ⟨h1, h2, h3⟩ := decode_eq_of_agree_except_bit29 hx
    unfold ZCAN2UDSFrame
    simp only [h1, h2, h3]
  have fd : ∀ x, (∀ i, i ≠ 29 → x.testBit i = d.frame.can_id.testBit i) →
      ZCANFD2UDSFrame { d with frame := { d.frame with can_id := x } } = ZCANFD2UDSFrame d := by
    intro x hx
    obtain ⟨h1, h2, h3⟩ := decode_eq_of_agree_except_bit29 hx
    unfold ZCANFD2UDSFrame
    simp only [h1, h2, h3]
  exact ⟨classic c hc, fd c' hc', classic _ (xor_err_flag_agree _), fd _ (xor_err_flag_agree _)⟩

/-- C10, at the received frames `rxClassic701` and `rxFd18DAF110` with the error
flag set in `can_id`. -/
theorem inbound_translation_ignores_error_flag_witness :
    (∀ i, i ≠ 29 → (0x701 ^^^ CAN_ERR_FLAG).testBit i = rxClassic701.frame.can_id.testBit i) ∧
    (∀ i, i ≠ 29 →
      (0x98DAF110 ^^^ CAN_ERR_FLAG).testBit i = rxFd18DAF110.frame.can_id.testBit i) ∧
    IS_ERR (0x701 ^^^ CAN_ERR_FLAG) = 1 ∧ IS_ERR rxClassic701.frame.can_id = 0 ∧
    ZCAN2UDSFrame { rxClassic701 with
        frame := { rxClassic701.frame with can_id := 0x701 ^^^ CAN_ERR_FLAG } }
      = ZCAN2UDSFrame rxClassic701 ∧
    ZCANFD2UDSFrame { rxFd18DAF110 with
        frame := { rxFd18DAF110.frame with can_id := 0x98DAF110 ^^^ CAN_ERR_FLAG } }
      = ZCANFD2UDSFrame rxFd18DAF110 :=
  ⟨xor_err_flag_agree 0x701, xor_err_flag_agree 0x98DAF110, by decide, by decide,
    (inbound_translation_ignores_error_flag rxClassic701 rxFd18DAF110
      (0x701 ^^^ CAN_ERR_FLAG) (0x98DAF110 ^^^ CAN_ERR_FLAG)
      (xor_err_flag_agree 0x701) (xor_err_flag_agree 0x98DAF110)).1,
    (inbound_translation_ignores_error_flag rxClassic701 rxFd18DAF110
      (0x701 ^^^ CAN_ERR_FLAG) (0x98DAF110 ^^^ CAN_ERR_FLAG)
      (xor_err_flag_agree 0x701) (xor_err_flag_agree 0x98DAF110)).2.1⟩

end ZlgUds
